import Mathlib

/-!
A verification model of the core of `extract_worklogs.py` (class
`JiraWorklogExtractor`): the relationship collector
`collect_all_related_issues`, the paginated `search_issues` loop, the
expiring pickle cache, the HTTP retry configuration, and the worklog
extraction pipeline (`_extract_issue_worklogs` / `extract_worklogs`).

Modelling conventions:
- remote HTTP responses are explicit data supplied through a `RemoteData`
  (collector) or `ExtractRemote` (extractor) value; the network adapter
  boundary is placed at the JSON payload each helper method consumes;
- Python dictionaries are association lists over a JSON-like value type
  `JVal`; Python exceptions are modelled with `Except PyErr`;
- a Python `set` of strings is modelled as a duplicate-free list in
  insertion order, and `sorted` as a structurally recursive insertion
  sort over the code-point order (extensionally the function computed by
  CPython `sorted` on string lists).
-/

/-- Python string comparison `a <= b`: the character sequences are compared
lexicographically by code point, which is exactly the order on `List Char`. -/
def pyLe (a b : String) : Bool := decide (a.data ≤ b.data)

/-- Python `s.startswith(pk)`: `pk` is a prefix of the character list of `s`. -/
def pyStartswith (s pk : String) : Bool := List.isPrefixOf pk.data s.data

/-- Adding a key to a Python `set`, modelled as a duplicate-free list kept in
insertion order: a no-op when the element is already present. -/
def pyAdd (l : List String) (k : String) : List String :=
  if k ∈ l then l else l ++ [k]

/-- Insert a string into an already sorted list, keeping it sorted. -/
def insertSorted (x : String) : List String → List String
  | [] => [x]
  | y :: ys => if pyLe x y then x :: y :: ys else y :: insertSorted x ys

/-- Python `sorted(...)` on a list of strings: insertion sort under the
code-point order (extensionally the same function as CPython timsort). -/
def pySorted : List String → List String
  | [] => []
  | x :: xs => insertSorted x (pySorted xs)

/-- One result of the direct search, as consumed by
`collect_all_related_issues`: its `key` and the value of
`issue['fields'].get('issuetype', {}).get('name', '')`. -/
structure DirectIssue where
  key : String
  issuetypeName : String
deriving DecidableEq

/-- The remote dataset seen by the collector: the direct search results
(`find_issues_by_erp_activity`) and, for each issue key, the keys delivered
by `get_epic_issues`, `get_linked_issues` and `get_subtasks`. -/
structure RemoteData where
  directIssues : List DirectIssue
  epicIssues : String → List String
  linkedIssues : String → List String
  subtasks : String → List String

/-- Steps 1 and 2 of `collect_all_related_issues`: add the key of every
direct match to the accumulating set. -/
def seedPhase (d : RemoteData) : List String :=
  d.directIssues.foldl (fun acc i => pyAdd acc i.key) []

/-- The epics recognised while scanning the direct matches: issues whose
issuetype name equals `"Epic"`, in scan order. -/
def epicKeysOf (d : RemoteData) : List String :=
  (d.directIssues.filter (fun i => i.issuetypeName == "Epic")).map DirectIssue.key

/-- Step 3 of `collect_all_related_issues`: for every epic among the direct
matches, add the keys of all issues returned by `get_epic_issues`. -/
def epicPhase (d : RemoteData) (s : List String) : List String :=
  (epicKeysOf d).foldl (fun acc e => (d.epicIssues e).foldl pyAdd acc) s

/-- Step 4 of `collect_all_related_issues`: iterate over a snapshot
(`initial_keys = list(all_issue_keys)`) of the set as it stands when the
phase starts, and add each cross-linked key that starts with the configured
project key.  Keys added during the phase are not themselves walked. -/
def linkPhase (d : RemoteData) (projectKey : String) (s : List String) : List String :=
  s.foldl
    (fun acc k =>
      (d.linkedIssues k).foldl
        (fun a lk => if pyStartswith lk projectKey then pyAdd a lk else a) acc)
    s

/-- Step 5 of `collect_all_related_issues`: iterate over a snapshot of the
set as it stands after the link phase and add every discovered subtask key,
with no namespace filter. -/
def subtaskPhase (d : RemoteData) (s : List String) : List String :=
  s.foldl (fun acc k => (d.subtasks k).foldl pyAdd acc) s

/-- `collect_all_related_issues`: seed with direct matches, expand epics,
add same-namespace cross-links, add subtasks, and return the sorted set. -/
def collect_all_related_issues (d : RemoteData) (projectKey : String) : List String :=
  pySorted (subtaskPhase d (linkPhase d projectKey (epicPhase d (seedPhase d))))

/-- The six-issue scenario dataset of the spec: the direct search returns
epic `ZYN-1` (E) and story `ZYN-2` (S); the children of `ZYN-1` are `ZYN-3`
(C1) and `ZYN-4` (C2); `ZYN-2` cross-links to `ZYN-5` (L1, same namespace)
and `ABC-7` (L2, foreign namespace); `ZYN-3` has subtask `ZYN-6` (T1); all
other queries are empty. -/
def scenarioData : RemoteData where
  directIssues := [⟨"ZYN-1", "Epic"⟩, ⟨"ZYN-2", "Story"⟩]
  epicIssues := fun k => if k = "ZYN-1" then ["ZYN-3", "ZYN-4"] else []
  linkedIssues := fun k => if k = "ZYN-2" then ["ZYN-5", "ABC-7"] else []
  subtasks := fun k => if k = "ZYN-3" then ["ZYN-6"] else []

/-- Dataset for the prefix-matching boundary: a cross-link to `ZYNX-1`, a
key of a different project whose string nevertheless starts with `ZYN`. -/
def prefixClashData : RemoteData where
  directIssues := [⟨"ZYN-1", "Story"⟩]
  epicIssues := fun _ => []
  linkedIssues := fun k => if k = "ZYN-1" then ["ZYNX-1"] else []
  subtasks := fun _ => []

/-- C1: on the scenario dataset, `collect_all_related_issues` returns
exactly the sorted six-element key set E, S, C1, C2, L1, T1, and the
foreign-namespace cross-link L2 = `ABC-7` is excluded. -/
theorem collect_scenario_six_keys :
    collect_all_related_issues scenarioData "ZYN" =
      ["ZYN-1", "ZYN-2", "ZYN-3", "ZYN-4", "ZYN-5", "ZYN-6"] ∧
    "ABC-7" ∉ collect_all_related_issues scenarioData "ZYN" := by
  constructor
  · decide
  · decide

/-- C10: the link-phase namespace check is plain string-prefix matching on
the whole key, so the cross-linked key `ZYNX-1`, which belongs to a
different project but merely starts with the configured project key `ZYN`,
is added to the collected set. -/
theorem link_phase_prefix_clash :
    "ZYNX-1" ∈ collect_all_related_issues prefixClashData "ZYN" := by
  decide

/-- One JSON response of the search endpoint, as consumed by
`search_issues`: the `issues` batch of the page (identified here by their
keys) and the reported `total`. -/
structure SearchPage where
  issues : List String
  total : Nat
deriving DecidableEq

/-- The body of the `while True` loop of `search_issues`.  Each iteration
fetches the page at `startAt`, appends its issues, and stops as soon as
`start_at + max_results >= data['total']`; otherwise it advances `startAt`
by `maxResults`.  The loop has no bound of its own in the source; `fuel`
only truncates runs the theorems never reach. -/
def searchIssuesAux (page : Nat → SearchPage) (maxResults : Nat) :
    Nat → Nat → List String → List String
  | 0, _, acc => acc
  | fuel + 1, startAt, acc =>
    let p := page startAt
    let acc2 := acc ++ p.issues
    if p.total ≤ startAt + maxResults then acc2
    else searchIssuesAux page maxResults fuel (startAt + maxResults) acc2

/-- `search_issues`: run the pagination loop from offset 0 with an empty
accumulator. -/
def search_issues (page : Nat → SearchPage) (maxResults fuel : Nat) : List String :=
  searchIssuesAux page maxResults fuel 0 []

/-- A remote that truncates every page to at most `cap` issues while still
reporting the full total, serving slices of `allIssues`. -/
def cappedRemote (allIssues : List String) (cap : Nat) : Nat → SearchPage :=
  fun startAt => ⟨(allIssues.drop startAt).take cap, allIssues.length⟩

/-- A remote that always serves the full requested slice of `allIssues`:
the page at `startAt` holds the next `maxResults` issues (fewer only on the
final page) and reports the full total. -/
def fullPageRemote (allIssues : List String) (maxResults : Nat) : Nat → SearchPage :=
  fun startAt => ⟨(allIssues.drop startAt).take maxResults, allIssues.length⟩

/-- C7 counterexample: with three reported issues A, B, C, a requested page
size of 2, and a server that caps each page at 1 issue, the loop stops after
fetching offsets 0 and 2 because `start_at + max_results` reached the
total: it returns `[A, C]`, skipping issue B and never reaching a
cumulative fetched count of 3. -/
theorem search_issues_skips_on_short_page :
    search_issues (cappedRemote ["A", "B", "C"] 1) 2 9 = ["A", "C"] ∧
    "B" ∉ search_issues (cappedRemote ["A", "B", "C"] 1) 2 9 ∧
    "B" ∈ (cappedRemote ["A", "B", "C"] 1 0).issues ++
        (cappedRemote ["A", "B", "C"] 1 1).issues ++
        (cappedRemote ["A", "B", "C"] 1 2).issues ∧
    (search_issues (cappedRemote ["A", "B", "C"] 1) 2 9).length <
      (cappedRemote ["A", "B", "C"] 1 0).total := by
  refine ⟨by decide, by decide, by decide, by decide⟩

/-- Invariant of the pagination loop over a full-page remote: starting at
offset `startAt` with enough fuel, the loop returns the accumulator
followed by every remaining issue. -/
theorem searchIssuesAux_fullPage (L : List String) (m : Nat) :
    ∀ (fuel startAt : Nat) (acc : List String),
      L.length ≤ startAt + m * fuel →
      searchIssuesAux (fullPageRemote L m) m fuel startAt acc = acc ++ L.drop startAt := by
  intro fuel
  induction fuel with
  | zero =>
    intro startAt acc h
    simp only [Nat.mul_zero, Nat.add_zero] at h
    simp [searchIssuesAux, List.drop_eq_nil_of_le h]
  | succ f ih =>
    intro startAt acc h
    simp only [searchIssuesAux, fullPageRemote]
    by_cases hstop : L.length ≤ startAt + m
    · simp only [hstop, if_true]
      have htake : (L.drop startAt).take m = L.drop startAt := by
        apply List.take_of_length_le
        have := List.length_drop startAt L
        omega
      rw [htake]
    · simp only [hstop, if_false]
      have h2 : L.length ≤ startAt + m + m * f := by
        rw [Nat.mul_succ] at h
        omega
      rw [ih (startAt + m) _ h2]
      have hsplit : (L.drop startAt).take m ++ L.drop (startAt + m) = L.drop startAt := by
        have := List.take_append_drop m (L.drop startAt)
        rw [List.drop_drop] at this
        exact this
      rw [List.append_assoc, hsplit]

/-- C7 amended: when every page returns the full requested slice (the next
`maxResults` issues, fewer only on the last page), the loop condition
`start_at + max_results >= total` coincides with the cumulative fetched
count reaching the reported total, and `search_issues` returns every issue
the remote reports, in order. -/
theorem search_issues_fullPage_complete (L : List String) (m fuel : Nat)
    (hfuel : L.length ≤ m * fuel) :
    search_issues (fullPageRemote L m) m fuel = L := by
  have := searchIssuesAux_fullPage L m fuel 0 [] (by omega)
  simpa [search_issues] using this

/-- Witness for the amended C7 theorem at a concrete input: five issues,
page size 2, fuel 3. -/
theorem search_issues_fullPage_complete_witness :
    search_issues (fullPageRemote ["A", "B", "C", "D", "E"] 2) 2 3 =
      ["A", "B", "C", "D", "E"] :=
  search_issues_fullPage_complete ["A", "B", "C", "D", "E"] 2 3 (by decide)

/-- One cache file on disk, as `_get_from_cache` sees it: a modification
time and a pickled payload.  The unreadable-pickle branch of the source
(caught and logged) only yields further misses and is not needed by any
claim, so the stored payload is kept abstract and always readable. -/
structure CacheEntry (α : Type) where
  mtime : Int
  payload : α

/-- The cache directory: one optional file per cache key. -/
structure CacheState (α : Type) where
  files : String → Option (CacheEntry α)

/-- `_get_from_cache`: a miss when caching is disabled or the file is
absent; otherwise the age `time.time() - st_mtime` is compared against the
TTL, and an expired file is unlinked and reported as a miss; a fresh file
is a hit.  The returned pair is the read result and the cache directory
afterwards. -/
def getFromCache {α : Type} (useCache : Bool) (cacheTtl : Int)
    (st : CacheState α) (now : Int) (cacheKey : String) :
    Option α × CacheState α :=
  if !useCache then (none, st)
  else
    match st.files cacheKey with
    | none => (none, st)
    | some e =>
      if now - e.mtime > cacheTtl then
        (none, ⟨fun k => if k = cacheKey then none else st.files k⟩)
      else
        (some e.payload, st)

/-- `_save_to_cache`: a no-op when caching is disabled, otherwise the entry
is overwritten with the current time as its modification time. -/
def saveToCache {α : Type} (useCache : Bool) (st : CacheState α)
    (now : Int) (cacheKey : String) (v : α) : CacheState α :=
  if !useCache then st
  else ⟨fun k => if k = cacheKey then some ⟨now, v⟩ else st.files k⟩

/-- C3: a cache entry whose age exceeds the TTL is never returned as a hit,
and when caching is enabled the expired file is deleted by the read.  Read
at time `T + ttl + 1`, an entry written at time `T` has age `ttl + 1 > ttl`,
so such a read is a miss that removes the entry. -/
theorem cache_ttl_expired_entry_is_miss {α : Type} (useCache : Bool)
    (cacheTtl : Int) (st : CacheState α) (now : Int) (cacheKey : String)
    (e : CacheEntry α) (hfile : st.files cacheKey = some e)
    (hold : now - e.mtime > cacheTtl) :
    (getFromCache useCache cacheTtl st now cacheKey).1 = none ∧
    (useCache = true →
      ((getFromCache useCache cacheTtl st now cacheKey).2.files cacheKey = none)) := by
  cases useCache with
  | false => simp [getFromCache]
  | true =>
    constructor
    · simp [getFromCache, hfile, hold]
    · intro _
      simp [getFromCache, hfile, hold]

/-- Witness for C3: a concrete entry written at time T = 100 with ttl 3600,
read at T + ttl + 1 = 3701, is a miss and is removed from the store. -/
theorem cache_ttl_expired_entry_is_miss_witness :
    (getFromCache true 3600 (⟨fun k => if k = "worklogs_h" then some ⟨100, 7⟩ else none⟩ :
        CacheState Nat) 3701 "worklogs_h").1 = none ∧
    (true = true →
      ((getFromCache true 3600 (⟨fun k => if k = "worklogs_h" then some ⟨100, 7⟩ else none⟩ :
          CacheState Nat) 3701 "worklogs_h").2.files "worklogs_h" = none)) :=
  cache_ttl_expired_entry_is_miss true 3600 _ 3701 "worklogs_h" ⟨100, 7⟩
    (by simp) (by decide)

/-- The urllib3 `Retry` configuration built by `_create_session_with_retries`. -/
structure RetryConfig where
  total : Nat
  backoffFactor : Nat
  statusForcelist : List Nat
  allowedMethods : List String
  raiseOnStatus : Bool

/-- The retry strategy of `_create_session_with_retries`:
`Retry(total=3, backoff_factor=1, status_forcelist=[429, 500, 502, 503, 504],
allowed_methods=["GET", "POST"], raise_on_status=False)`. -/
def createSessionRetryConfig : RetryConfig where
  total := 3
  backoffFactor := 1
  statusForcelist := [429, 500, 502, 503, 504]
  allowedMethods := ["GET", "POST"]
  raiseOnStatus := false

/-- urllib3 retries a response status only when the request method is in
`allowed_methods` and the status is in `status_forcelist`. -/
def retriesOn (c : RetryConfig) (method : String) (status : Nat) : Bool :=
  c.allowedMethods.contains method && c.statusForcelist.contains status

/-- Idempotent HTTP methods per RFC 7231 section 4.2.2; `POST` is not among
them, and the read-only (safe) methods are `GET`, `HEAD`, `OPTIONS`,
`TRACE`. -/
def idempotentHttpMethods : List String :=
  ["GET", "HEAD", "OPTIONS", "TRACE", "PUT", "DELETE"]

/-- C4 evaluation at the failing input: the configured session retries a
`POST` request that returned status 429 (and likewise the 5xx statuses of
the forcelist), although `POST` is not an idempotent (read-only) method;
the inline source comment says only safe methods are retried. -/
theorem retry_config_retries_post :
    retriesOn createSessionRetryConfig "POST" 429 = true ∧
    retriesOn createSessionRetryConfig "POST" 503 = true ∧
    idempotentHttpMethods.contains "POST" = false := by
  refine ⟨by decide, by decide, by decide⟩

/-- A JSON-like Python value, covering the shapes the worklog payload can
take: `None`, strings, integers, lists, and dictionaries. -/
inductive JVal where
  | jnull : JVal
  | jstr : String → JVal
  | jnum : Int → JVal
  | jarr : List JVal → JVal
  | jobj : List (String × JVal) → JVal

/-- The Python exception classes the extraction code can meet: the first
three are caught by the comment fallback handler, `TypeError` is not. -/
inductive PyErr where
  | keyError
  | indexError
  | attributeError
  | typeError
deriving DecidableEq

/-- A Python dictionary with string keys. -/
abbrev PyDict := List (String × JVal)

/-- Python `d.get(k, dflt)` on a dictionary. -/
def lookupD (k : String) : PyDict → JVal → JVal
  | [], dflt => dflt
  | (k2, v) :: rest, dflt => if k2 = k then v else lookupD k rest dflt

/-- Python truthiness for the modelled values: `None`, `""`, `0` and empty
containers are falsy. -/
def truthy : JVal → Bool
  | .jnull => false
  | .jstr s => !(s == "")
  | .jnum n => !(n == 0)
  | .jarr xs => !xs.isEmpty
  | .jobj fields => !fields.isEmpty

/-- Python `len(v)`: defined for strings, lists and dictionaries, a
`TypeError` otherwise. -/
def pyLen : JVal → Except PyErr Nat
  | .jstr s => .ok s.length
  | .jarr xs => .ok xs.length
  | .jobj fields => .ok fields.length
  | _ => .error .typeError

/-- Python `v[0]`: the head of a list (`IndexError` when empty), the first
character of a string, a `KeyError` on a string-keyed dictionary (the key
`0` is an integer), a `TypeError` otherwise. -/
def pySubscript0 : JVal → Except PyErr JVal
  | .jarr [] => .error .indexError
  | .jarr (x :: _) => .ok x
  | .jstr s =>
    match s.data with
    | [] => .error .indexError
    | c :: _ => .ok (.jstr (String.mk [c]))
  | .jobj _ => .error .keyError
  | _ => .error .typeError

/-- Python `d[k]` on a dictionary: `KeyError` when the key is absent. -/
def pyGetItem (w : PyDict) (k : String) : Except PyErr JVal :=
  match w with
  | [] => .error .keyError
  | (k2, v) :: rest => if k2 = k then .ok v else pyGetItem rest k

/-- Python `obj.get(k, dflt)`: only dictionaries have a `get` attribute,
any other receiver raises `AttributeError`. -/
def pyDotGet (obj : JVal) (k : String) (dflt : JVal) : Except PyErr JVal :=
  match obj with
  | .jobj fields => .ok (lookupD k fields dflt)
  | _ => .error .attributeError

mutual

/-- Python `str(v)` on the modelled values, matching CPython repr output
for nested containers (strings quoted, items joined with a comma). -/
def pyRepr : JVal → String
  | .jnull => "None"
  | .jstr s => "\x27" ++ s ++ "\x27"
  | .jnum n => toString n
  | .jarr xs => "[" ++ pyReprItems xs ++ "]"
  | .jobj fields => "\x7b" ++ pyReprFields fields ++ "\x7d"

/-- Comma-joined reprs of list items. -/
def pyReprItems : List JVal → String
  | [] => ""
  | [x] => pyRepr x
  | x :: y :: rest => pyRepr x ++ ", " ++ pyReprItems (y :: rest)

/-- Comma-joined reprs of dictionary entries. -/
def pyReprFields : List (String × JVal) → String
  | [] => ""
  | [(k, v)] => "\x27" ++ k ++ "\x27: " ++ pyRepr v
  | (k, v) :: p :: rest =>
    "\x27" ++ k ++ "\x27: " ++ pyRepr v ++ ", " ++ pyReprFields (p :: rest)

end

/-- The `try` body of the Atlassian-Document-Format branch of the comment
handler: take `content`, check truthiness and length, subscript the first
block, and when it is a dictionary repeat the walk one level down to the
first text node, reading its `text` entry with default `""`.  Every failed
`isinstance` guard leaves the comment at `""`. -/
def adfExtract (fields : PyDict) : Except PyErr JVal :=
  let content := lookupD "content" fields (.jarr [])
  if truthy content then
    match pyLen content with
    | .error e => .error e
    | .ok n =>
      if 0 < n then
        match pySubscript0 content with
        | .error e => .error e
        | .ok firstBlock =>
          match firstBlock with
          | .jobj fb =>
            let blockContent := lookupD "content" fb (.jarr [])
            if truthy blockContent then
              match pyLen blockContent with
              | .error e => .error e
              | .ok m =>
                if 0 < m then
                  match pySubscript0 blockContent with
                  | .error e => .error e
                  | .ok textNode =>
                    match textNode with
                    | .jobj tf => .ok (lookupD "text" tf (.jstr ""))
                    | _ => .ok (.jstr "")
                else .ok (.jstr "")
            else .ok (.jstr "")
          | _ => .ok (.jstr "")
      else .ok (.jstr "")
  else .ok (.jstr "")

/-- The comment-handling block of `_extract_issue_worklogs`: start from
`''`; a falsy `worklog.get('comment')` (absent, `None`, or empty) leaves it
empty; a string passes through; a dictionary goes through the ADF walk,
where a raised `KeyError`, `IndexError` or `AttributeError` falls back to
`str(comment_field)` while a `TypeError` propagates; any other value type
leaves the comment empty. -/
def normalizeComment (c : JVal) : Except PyErr JVal :=
  if truthy c then
    match c with
    | .jstr s => .ok (.jstr s)
    | .jobj fields =>
      match adfExtract fields with
      | .ok v => .ok v
      | .error .typeError => .error .typeError
      | .error _ => .ok (.jstr (pyRepr (.jobj fields)))
    | _ => .ok (.jstr "")
  else .ok (.jstr "")

/-- The metadata dictionary produced by `get_issue_metadata` for one issue,
abstracted at the adapter boundary: its construction from the raw issue
fields is not the subject of any claim, only its forwarding into records. -/
structure IssueMetadata where
  issue_type : JVal
  epic_link : JVal
  summary : JVal
  components : JVal
  labels : JVal
  product_item : JVal
  team : JVal

/-- One flat worklog record, with the fields the append in
`_extract_issue_worklogs` writes. -/
structure WorklogRecord where
  issue_key : String
  issue_type : JVal
  epic_link : JVal
  summary : JVal
  components : JVal
  labels : JVal
  product_item : JVal
  team : JVal
  worklog_id : JVal
  author : JVal
  author_email : JVal
  time_spent : JVal
  time_spent_seconds : JVal
  started : JVal
  comment : JVal

/-- Building one record from one worklog dictionary, in source evaluation
order: the comment is normalised first, then the record literal evaluates
`worklog['id']`, `worklog['author'].get('displayName', 'Unknown')` and
`worklog['author'].get('emailAddress', '')`, which can raise, while
`timeSpent`, `timeSpentSeconds` and `started` are read with `get` defaults
`''`, `0` and `''`. -/
def buildRecord (issueKey : String) (md : IssueMetadata) (w : PyDict) :
    Except PyErr WorklogRecord :=
  match normalizeComment (lookupD "comment" w .jnull) with
  | .error e => .error e
  | .ok comment =>
    match pyGetItem w "id" with
    | .error e => .error e
    | .ok wid =>
      match pyGetItem w "author" with
      | .error e => .error e
      | .ok authorObj =>
        match pyDotGet authorObj "displayName" (.jstr "Unknown") with
        | .error e => .error e
        | .ok authorName =>
          match pyDotGet authorObj "emailAddress" (.jstr "") with
          | .error e => .error e
          | .ok authorEmail =>
            .ok
              { issue_key := issueKey
                issue_type := md.issue_type
                epic_link := md.epic_link
                summary := md.summary
                components := md.components
                labels := md.labels
                product_item := md.product_item
                team := md.team
                worklog_id := wid
                author := authorName
                author_email := authorEmail
                time_spent := lookupD "timeSpent" w (.jstr "")
                time_spent_seconds := lookupD "timeSpentSeconds" w (.jnum 0)
                started := lookupD "started" w (.jstr "")
                comment := comment }

/-- The remote data seen by the extractor, at the boundary of
`get_issue_metadata` and `get_worklogs` (both deterministic for one run;
their internal caching is observationally absent then). -/
structure ExtractRemote where
  issueMetadata : String → Except PyErr IssueMetadata
  worklogs : String → Except PyErr (List PyDict)

/-- The `for worklog in worklogs` loop of `_extract_issue_worklogs`:
records accumulate in `result_worklogs`; the first raised error stops the
loop, leaving the records already appended. -/
def worklogLoop (issueKey : String) (md : IssueMetadata) :
    List PyDict → List WorklogRecord → List WorklogRecord × Option PyErr
  | [], acc => (acc, none)
  | w :: rest, acc =>
    match buildRecord issueKey md w with
    | .ok r => worklogLoop issueKey md rest (acc ++ [r])
    | .error e => (acc, some e)

/-- The `try` body of `_extract_issue_worklogs` for one key: fetch
metadata, fetch worklogs, then run the record loop.  The second component
is the exception raised, if any; the first is `result_worklogs` as it
stands at that point. -/
def processIssue (remote : ExtractRemote) (issueKey : String) :
    List WorklogRecord × Option PyErr :=
  match remote.issueMetadata issueKey with
  | .error e => ([], some e)
  | .ok md =>
    match remote.worklogs issueKey with
    | .error e => ([], some e)
    | .ok ws => worklogLoop issueKey md ws []

/-- `_extract_issue_worklogs`: the `except Exception` handler swallows any
raised error and the function returns `result_worklogs` as accumulated so
far — the whole list on success, a prefix on a mid-loop error, the empty
list on a fetch error. -/
def extract_issue_worklogs (remote : ExtractRemote) (issueKey : String) :
    List WorklogRecord :=
  (processIssue remote issueKey).1

/-- Whether processing this key raises an exception anywhere. -/
def issueProcessingFails (remote : ExtractRemote) (issueKey : String) : Bool :=
  (processIssue remote issueKey).2.isSome

/-- Whether an `Except` result is an error. -/
def exceptIsError {ε α : Type} : Except ε α → Bool
  | .error _ => true
  | .ok _ => false

/-- Whether processing this key fails already while fetching metadata or
the worklog list, before any record is built. -/
def issueFetchFails (remote : ExtractRemote) (issueKey : String) : Bool :=
  exceptIsError (remote.issueMetadata issueKey) ||
    exceptIsError (remote.worklogs issueKey)

/-- `extract_worklogs`: one task per key on the thread pool, results
concatenated.  The pool only affects the interleaving of the completed
per-key lists; membership and per-key contributions, which is all the
claims speak about, are those of the sequential concatenation. -/
def extract_worklogs (remote : ExtractRemote) (issueKeys : List String) :
    List WorklogRecord :=
  (issueKeys.map (extract_issue_worklogs remote)).flatten

/-- A well-formed Atlassian Document Format comment whose first content
block holds a first text node with text `done`. -/
def adfDoneDoc : JVal :=
  .jobj [("type", .jstr "doc"), ("version", .jnum 1),
    ("content", .jarr [.jobj [("type", .jstr "paragraph"),
      ("content", .jarr [.jobj [("type", .jstr "text"),
        ("text", .jstr "done")]])]])]

/-- A malformed document whose `content` entry is a mapping instead of a
list: subscripting it with `0` raises `KeyError`, which the handler
catches. -/
def adfMappingContentDoc : JVal :=
  .jobj [("content", .jobj [("a", .jnum 1)])]

/-- A malformed document whose first content item is a number instead of a
block dictionary: every guard merely fails, nothing is raised. -/
def adfNonDictBlockDoc : JVal :=
  .jobj [("content", .jarr [.jnum 42])]

/-- C8 amended: a well-formed rich-text comment with first text `done`
normalises to `done`; a plain string passes through unchanged; an absent
comment normalises to the empty string; and a malformed document falls back
to the serialisation of the full document exactly when its traversal raises
a lookup error, as with a mapping-valued `content`. -/
theorem comment_normalization_cases (s : String) :
    normalizeComment adfDoneDoc = .ok (.jstr "done") ∧
    normalizeComment (.jstr s) = .ok (.jstr s) ∧
    normalizeComment .jnull = .ok (.jstr "") ∧
    normalizeComment adfMappingContentDoc =
      .ok (.jstr (pyRepr adfMappingContentDoc)) := by
  refine ⟨rfl, ?_, rfl, rfl⟩
  by_cases h : s = ""
  · subst h
    rfl
  · simp [normalizeComment, truthy, h]

/-- C8 counterexample: the document with a number as its first content
block is unexpectedly structured, yet it normalises to the empty string,
not to the (non-empty) serialisation of the full document — the guarded
type checks fail without raising, so the fallback is never reached. -/
theorem comment_fallback_counterexample :
    normalizeComment adfNonDictBlockDoc = .ok (.jstr "") ∧
    pyRepr adfNonDictBlockDoc ≠ "" :=
  ⟨rfl, by decide⟩

/-- Metadata value shared by the concrete extraction datasets. -/
def mdPlain : IssueMetadata :=
  ⟨.jstr "Story", .jstr "", .jstr "S", .jarr [], .jarr [],
    .jstr "None", .jstr "None"⟩

/-- Fields of a successfully built record, read off from the shape of
`buildRecord`: the key is the key the record was built for, and the two
duration fields are copied verbatim from the worklog dictionary with
defaults `''` and `0`. -/
theorem buildRecord_fields (issueKey : String) (md : IssueMetadata)
    (w : PyDict) (r : WorklogRecord)
    (hok : buildRecord issueKey md w = .ok r) :
    r.issue_key = issueKey ∧
    r.time_spent_seconds = lookupD "timeSpentSeconds" w (.jnum 0) ∧
    r.time_spent = lookupD "timeSpent" w (.jstr "") := by
  unfold buildRecord at hok
  cases h1 : normalizeComment (lookupD "comment" w .jnull) with
  | error e =>
    simp only [h1] at hok
    exact (Except.noConfusion hok)
  | ok comment =>
    simp only [h1] at hok
    cases h2 : pyGetItem w "id" with
    | error e =>
      simp only [h2] at hok
      exact (Except.noConfusion hok)
    | ok wid =>
      simp only [h2] at hok
      cases h3 : pyGetItem w "author" with
      | error e =>
        simp only [h3] at hok
        exact (Except.noConfusion hok)
      | ok authorObj =>
        simp only [h3] at hok
        cases h4 : pyDotGet authorObj "displayName" (.jstr "Unknown") with
        | error e =>
          simp only [h4] at hok
          exact (Except.noConfusion hok)
        | ok authorName =>
          simp only [h4] at hok
          cases h5 : pyDotGet authorObj "emailAddress" (.jstr "") with
          | error e =>
            simp only [h5] at hok
            exact (Except.noConfusion hok)
          | ok authorEmail =>
            simp only [h5] at hok
            cases hok
            exact ⟨rfl, rfl, rfl⟩

/-- C9 amended: the `durationSeconds` of every successfully built record is
copied verbatim from the `timeSpentSeconds` entry of the source worklog
(with default `0` when absent), not parsed from the duration text; it is
therefore a non-negative integer exactly when the source entry is one. -/
theorem time_spent_seconds_copied (issueKey : String) (md : IssueMetadata)
    (w : PyDict) (r : WorklogRecord)
    (hok : buildRecord issueKey md w = .ok r) :
    r.time_spent_seconds = lookupD "timeSpentSeconds" w (.jnum 0) ∧
    r.time_spent = lookupD "timeSpent" w (.jstr "") :=
  ⟨(buildRecord_fields issueKey md w r hok).2.1,
   (buildRecord_fields issueKey md w r hok).2.2⟩

/-- A worklog dictionary whose reported duration is `3h 30m` and whose
`timeSpentSeconds` entry, as the remote service computes it, is `12600`. -/
def w330 : PyDict :=
  [("id", .jstr "100"),
   ("author", .jobj [("displayName", .jstr "Ann"),
     ("emailAddress", .jstr "ann@example.com")]),
   ("timeSpent", .jstr "3h 30m"),
   ("timeSpentSeconds", .jnum 12600),
   ("started", .jstr "2024-03-15T10:00:00.000+0000"),
   ("comment", .jstr "done")]

/-- The record `buildRecord` produces from `w330`. -/
def r330 : WorklogRecord :=
  { issue_key := "ZYN-2"
    issue_type := .jstr "Story"
    epic_link := .jstr ""
    summary := .jstr "S"
    components := .jarr []
    labels := .jarr []
    product_item := .jstr "None"
    team := .jstr "None"
    worklog_id := .jstr "100"
    author := .jstr "Ann"
    author_email := .jstr "ann@example.com"
    time_spent := .jstr "3h 30m"
    time_spent_seconds := .jnum 12600
    started := .jstr "2024-03-15T10:00:00.000+0000"
    comment := .jstr "done" }

/-- Witness for the amended C9 theorem: on the concrete `3h 30m` worklog
the copied value is `12600`. -/
theorem time_spent_seconds_copied_witness :
    (r330.time_spent_seconds = lookupD "timeSpentSeconds" w330 (.jnum 0) ∧
      r330.time_spent = lookupD "timeSpent" w330 (.jstr "")) ∧
    lookupD "timeSpentSeconds" w330 (.jnum 0) = .jnum 12600 :=
  ⟨time_spent_seconds_copied "ZYN-2" mdPlain w330 r330 rfl, rfl⟩

/-- A worklog reporting duration text `3h 30m` together with a negative
`timeSpentSeconds` entry. -/
def wNeg : PyDict :=
  [("id", .jstr "101"),
   ("author", .jobj [("displayName", .jstr "Bob")]),
   ("timeSpent", .jstr "3h 30m"),
   ("timeSpentSeconds", .jnum (-1))]

/-- Extraction dataset delivering the negative-duration worklog. -/
def remoteC9 : ExtractRemote where
  issueMetadata := fun _ => .ok mdPlain
  worklogs := fun k => if k = "ZYN-9" then .ok [wNeg] else .ok []

/-- C9 counterexample: the emitted record for an entry whose reported
duration text is `3h 30m` carries `durationSeconds = -1`, copied untouched
from the source field — negative, and not the parsed value `12600`. -/
theorem duration_seconds_negative_counterexample :
    (extract_worklogs remoteC9 ["ZYN-9"]).map WorklogRecord.time_spent_seconds =
      [.jnum (-1)] ∧
    (extract_worklogs remoteC9 ["ZYN-9"]).map WorklogRecord.time_spent =
      [.jstr "3h 30m"] ∧
    ((-1 : Int) < 0) :=
  ⟨rfl, rfl, by decide⟩

/-- A worklog that builds a record successfully. -/
def wGood7 : PyDict :=
  [("id", .jstr "300"),
   ("author", .jobj [("displayName", .jstr "Dee")]),
   ("timeSpentSeconds", .jnum 60)]

/-- Another worklog that builds a record successfully. -/
def wGood8 : PyDict :=
  [("id", .jstr "200"),
   ("author", .jobj [("displayName", .jstr "Cyd")]),
   ("timeSpentSeconds", .jnum 600)]

/-- A worklog with no `author` entry: building its record raises
`KeyError` after the records before it were already appended. -/
def wBad8 : PyDict :=
  [("id", .jstr "201")]

/-- Extraction dataset where `ZYN-7` succeeds and `ZYN-8` raises mid-loop:
its first worklog builds fine, its second lacks the `author` key. -/
def remoteC2 : ExtractRemote where
  issueMetadata := fun _ => .ok mdPlain
  worklogs := fun k =>
    if k = "ZYN-7" then .ok [wGood7]
    else if k = "ZYN-8" then .ok [wGood8, wBad8]
    else .ok []

/-- C2 counterexample: on `remoteC2` the processing of `ZYN-8` raises (and
of `ZYN-7` does not), yet the extraction result contains a record from
`ZYN-8`: the failing key contributes the records appended before the error,
not zero records. -/
theorem extract_partial_contribution_counterexample :
    issueProcessingFails remoteC2 "ZYN-8" = true ∧
    issueProcessingFails remoteC2 "ZYN-7" = false ∧
    (extract_worklogs remoteC2 ["ZYN-7", "ZYN-8"]).map WorklogRecord.issue_key =
      ["ZYN-7", "ZYN-8"] :=
  ⟨rfl, rfl, rfl⟩

/-- Every record the worklog loop returns carries the key it was built for,
provided the records already accumulated do. -/
theorem worklogLoop_issue_key (issueKey : String) (md : IssueMetadata) :
    ∀ (ws : List PyDict) (acc : List WorklogRecord),
      (∀ r ∈ acc, r.issue_key = issueKey) →
      ∀ r ∈ (worklogLoop issueKey md ws acc).1, r.issue_key = issueKey := by
  intro ws
  induction ws with
  | nil =>
    intro acc hacc r hr
    exact hacc r hr
  | cons w rest ih =>
    intro acc hacc r hr
    simp only [worklogLoop] at hr
    cases hb : buildRecord issueKey md w with
    | ok r2 =>
      simp only [hb] at hr
      refine ih (acc ++ [r2]) ?_ r hr
      intro r3 hr3
      rcases List.mem_append.mp hr3 with h | h
      · exact hacc r3 h
      · rw [List.mem_singleton.mp h]
        exact (buildRecord_fields issueKey md w r2 hb).1
    | error e =>
      simp only [hb] at hr
      exact hacc r hr

/-- When the worklog loop finishes without an error it has appended one
record per worklog. -/
theorem worklogLoop_length (issueKey : String) (md : IssueMetadata) :
    ∀ (ws : List PyDict) (acc : List WorklogRecord),
      (worklogLoop issueKey md ws acc).2 = none →
      (worklogLoop issueKey md ws acc).1.length = acc.length + ws.length := by
  intro ws
  induction ws with
  | nil =>
    intro acc _
    simp [worklogLoop]
  | cons w rest ih =>
    intro acc hnone
    simp only [worklogLoop] at hnone ⊢
    cases hb : buildRecord issueKey md w with
    | ok r2 =>
      simp only [hb] at hnone ⊢
      rw [ih (acc ++ [r2]) hnone]
      simp only [List.length_append, List.length_singleton, List.length_cons,
        List.length_nil]
      omega
    | error e =>
      simp only [hb] at hnone
      exact absurd hnone (by simp)

/-- A key whose metadata or worklog fetch raises contributes no records at
all: the error fires before the record loop starts. -/
theorem extract_issue_worklogs_of_fetch_fails (remote : ExtractRemote)
    (issueKey : String) (h : issueFetchFails remote issueKey = true) :
    extract_issue_worklogs remote issueKey = [] := by
  unfold extract_issue_worklogs processIssue
  cases hm : remote.issueMetadata issueKey with
  | error e => simp
  | ok md =>
    cases hw : remote.worklogs issueKey with
    | error e => simp
    | ok ws =>
      exfalso
      unfold issueFetchFails at h
      rw [hm, hw] at h
      simp [exceptIsError] at h

/-- Every record contributed by one key carries that key. -/
theorem extract_issue_worklogs_key (remote : ExtractRemote) (issueKey : String) :
    ∀ r ∈ extract_issue_worklogs remote issueKey, r.issue_key = issueKey := by
  intro r hr
  unfold extract_issue_worklogs processIssue at hr
  cases hm : remote.issueMetadata issueKey with
  | error e =>
    simp only [hm] at hr
    simp at hr
  | ok md =>
    simp only [hm] at hr
    cases hw : remote.worklogs issueKey with
    | error e =>
      simp only [hw] at hr
      simp at hr
    | ok ws =>
      simp only [hw] at hr
      exact worklogLoop_issue_key issueKey md ws [] (by simp) r hr

/-- A key whose processing raises nothing contributes one record per
worklog the remote reports for it. -/
theorem extract_issue_worklogs_complete (remote : ExtractRemote)
    (issueKey : String) (h : issueProcessingFails remote issueKey = false)
    (ws : List PyDict) (hws : remote.worklogs issueKey = .ok ws) :
    (extract_issue_worklogs remote issueKey).length = ws.length := by
  unfold issueProcessingFails processIssue at h
  unfold extract_issue_worklogs processIssue
  cases hm : remote.issueMetadata issueKey with
  | error e =>
    simp only [hm] at h
    simp at h
  | ok md =>
    simp only [hm, hws] at h ⊢
    have h2 : (worklogLoop issueKey md ws []).2 = none := by
      cases ho : (worklogLoop issueKey md ws []).2 with
      | none => rfl
      | some e =>
        rw [ho] at h
        simp at h
    have := worklogLoop_length issueKey md ws [] h2
    simpa using this

/-- Dropping an element whose image is empty does not change the flattened
image of a list. -/
theorem flatten_map_filter_of_empty {α β : Type} [DecidableEq α]
    (f : α → List β) (bad : α) (hf : f bad = []) :
    ∀ l : List α,
      (l.map f).flatten = ((l.filter (fun k => !(k == bad))).map f).flatten := by
  intro l
  induction l with
  | nil => rfl
  | cons k ks ih =>
    by_cases hk : k = bad
    · subst hk
      simp [List.filter_cons, hf, ih]
    · simp [List.filter_cons, hk, ih]

/-- C2 amended: when exactly one key fails and its error is raised while
fetching metadata or the worklog list (before any record is built), the
failing key contributes zero records, the result equals the concatenated
contributions of the remaining keys, no returned record carries the failing
key, and every non-failing key contributes all of its records.  (A key
whose error is raised midway through the record loop instead contributes
the records appended before the error; see the counterexample.) -/
theorem extract_worklogs_fault_isolation (remote : ExtractRemote)
    (issueKeys : List String) (kbad : String)
    (hbad : issueFetchFails remote kbad = true)
    (hgood : ∀ k ∈ issueKeys, k ≠ kbad → issueProcessingFails remote k = false) :
    extract_issue_worklogs remote kbad = [] ∧
    extract_worklogs remote issueKeys =
      ((issueKeys.filter (fun k => !(k == kbad))).map
        (extract_issue_worklogs remote)).flatten ∧
    (∀ r ∈ extract_worklogs remote issueKeys, r.issue_key ≠ kbad) ∧
    (∀ k ∈ issueKeys, k ≠ kbad → ∀ ws, remote.worklogs k = .ok ws →
      (extract_issue_worklogs remote k).length = ws.length) := by
  have hempty := extract_issue_worklogs_of_fetch_fails remote kbad hbad
  refine ⟨hempty, ?_, ?_, ?_⟩
  · exact flatten_map_filter_of_empty (extract_issue_worklogs remote) kbad
      hempty issueKeys
  · intro r hr
    unfold extract_worklogs at hr
    rw [List.mem_flatten] at hr
    obtain ⟨lr, hl, hrl⟩ := hr
    rw [List.mem_map] at hl
    obtain ⟨k, _, rfl⟩ := hl
    intro hcontra
    have hkey := extract_issue_worklogs_key remote k r hrl
    have hkk : k = kbad := hkey.symm.trans hcontra
    subst hkk
    rw [hempty] at hrl
    exact absurd hrl (List.not_mem_nil r)
  · intro k hk hne ws hws
    exact extract_issue_worklogs_complete remote k (hgood k hk hne) ws hws

/-- Extraction dataset where fetching `ZYN-9` fails outright and `ZYN-7`
succeeds. -/
def remoteW2 : ExtractRemote where
  issueMetadata := fun k =>
    if k = "ZYN-9" then .error .keyError else .ok mdPlain
  worklogs := fun k => if k = "ZYN-7" then .ok [wGood7] else .ok []

/-- Witness for the amended C2 theorem on `remoteW2`: the fetch-failing key
contributes nothing and the result is the concatenation over the remaining
keys. -/
theorem extract_worklogs_fault_isolation_witness :
    extract_issue_worklogs remoteW2 "ZYN-9" = [] ∧
    extract_worklogs remoteW2 ["ZYN-7", "ZYN-9"] =
      (((["ZYN-7", "ZYN-9"] : List String).filter (fun k => !(k == "ZYN-9"))).map
        (extract_issue_worklogs remoteW2)).flatten :=
  ⟨(extract_worklogs_fault_isolation remoteW2 ["ZYN-7", "ZYN-9"] "ZYN-9" rfl
      (by decide)).1,
   (extract_worklogs_fault_isolation remoteW2 ["ZYN-7", "ZYN-9"] "ZYN-9" rfl
      (by decide)).2.1⟩

/-- Membership after a set add: the element was present or is the added key. -/
theorem mem_pyAdd {a k : String} {l : List String} (h : a ∈ pyAdd l k) :
    a ∈ l ∨ a = k := by
  unfold pyAdd at h
  by_cases hk : k ∈ l
  · rw [if_pos hk] at h
    exact Or.inl h
  · rw [if_neg hk] at h
    rcases List.mem_append.mp h with h2 | h2
    · exact Or.inl h2
    · exact Or.inr (List.mem_singleton.mp h2)

/-- The added key is a member afterwards. -/
theorem self_mem_pyAdd (l : List String) (k : String) : k ∈ pyAdd l k := by
  unfold pyAdd
  by_cases hk : k ∈ l
  · rw [if_pos hk]
    exact hk
  · rw [if_neg hk]
    simp

/-- Adding never removes members. -/
theorem mem_pyAdd_of_mem {a : String} {l : List String} (k : String)
    (h : a ∈ l) : a ∈ pyAdd l k := by
  unfold pyAdd
  by_cases hk : k ∈ l
  · rw [if_pos hk]
    exact h
  · rw [if_neg hk]
    exact List.mem_append_left _ h

/-- Walking one link list only adds keys passing the prefix test. -/
theorem mem_linkFold (pk : String) :
    ∀ (ls init : List String) (a : String),
      a ∈ ls.foldl
        (fun acc lk => if pyStartswith lk pk then pyAdd acc lk else acc) init →
      a ∈ init ∨ pyStartswith a pk = true := by
  intro ls
  induction ls with
  | nil =>
    intro init a h
    exact Or.inl h
  | cons lk rest ih =>
    intro init a h
    simp only [List.foldl_cons] at h
    rcases ih _ a h with h2 | h2
    · by_cases hs : pyStartswith lk pk = true
      · rw [if_pos hs] at h2
        rcases mem_pyAdd h2 with h3 | h3
        · exact Or.inl h3
        · subst h3
          exact Or.inr hs
      · rw [if_neg hs] at h2
        exact Or.inl h2
    · exact Or.inr h2

/-- The whole link phase only adds keys passing the prefix test. -/
theorem mem_linkPhase_aux (d : RemoteData) (pk : String) :
    ∀ (snap acc : List String) (a : String),
      a ∈ snap.foldl
        (fun acc2 k =>
          (d.linkedIssues k).foldl
            (fun b lk => if pyStartswith lk pk then pyAdd b lk else b) acc2) acc →
      a ∈ acc ∨ pyStartswith a pk = true := by
  intro snap
  induction snap with
  | nil =>
    intro acc a h
    exact Or.inl h
  | cons k rest ih =>
    intro acc a h
    simp only [List.foldl_cons] at h
    rcases ih _ a h with h2 | h2
    · exact mem_linkFold pk (d.linkedIssues k) acc a h2
    · exact Or.inr h2

/-- A fold of adds keeps existing members. -/
theorem mem_foldl_pyAdd_of_mem :
    ∀ (ls acc : List String) (a : String), a ∈ acc → a ∈ ls.foldl pyAdd acc := by
  intro ls
  induction ls with
  | nil =>
    intro acc a h
    exact h
  | cons x rest ih =>
    intro acc a h
    exact ih _ a (mem_pyAdd_of_mem x h)

/-- A fold of adds contains every element of the folded list. -/
theorem mem_foldl_pyAdd_of_mem_list :
    ∀ (ls acc : List String) (a : String), a ∈ ls → a ∈ ls.foldl pyAdd acc := by
  intro ls
  induction ls with
  | nil =>
    intro acc a h
    exact absurd h (List.not_mem_nil a)
  | cons x rest ih =>
    intro acc a h
    simp only [List.foldl_cons]
    rcases List.mem_cons.mp h with h2 | h2
    · subst h2
      exact mem_foldl_pyAdd_of_mem rest _ a (self_mem_pyAdd acc a)
    · exact ih _ a h2

/-- The subtask sweep keeps existing members. -/
theorem mem_subtaskFold_of_mem (d : RemoteData) :
    ∀ (snap acc : List String) (a : String), a ∈ acc →
      a ∈ snap.foldl (fun acc2 k => (d.subtasks k).foldl pyAdd acc2) acc := by
  intro snap
  induction snap with
  | nil =>
    intro acc a h
    exact h
  | cons k rest ih =>
    intro acc a h
    exact ih _ a (mem_foldl_pyAdd_of_mem (d.subtasks k) acc a h)

/-- Every subtask of a key of the walked snapshot ends up in the sweep. -/
theorem mem_subtaskFold_of_subtask (d : RemoteData) :
    ∀ (snap acc : List String) (p sub : String),
      p ∈ snap → sub ∈ d.subtasks p →
      sub ∈ snap.foldl (fun acc2 k => (d.subtasks k).foldl pyAdd acc2) acc := by
  intro snap
  induction snap with
  | nil =>
    intro acc p sub hp _
    exact absurd hp (List.not_mem_nil p)
  | cons k rest ih =>
    intro acc p sub hp hsub
    simp only [List.foldl_cons]
    rcases List.mem_cons.mp hp with h2 | h2
    · subst h2
      exact mem_subtaskFold_of_mem d rest _ sub
        (mem_foldl_pyAdd_of_mem_list (d.subtasks p) acc sub hsub)
    · exact ih _ p sub h2 hsub

/-- C5: in the link phase of the collector any key that was not already
collected is added only when its string starts with the configured project
key, while the subtask phase adds every subtask of a snapshot member, with
no namespace condition at all. -/
theorem link_excludes_subtask_includes (d : RemoteData) (projectKey : String)
    (s : List String) :
    (∀ k, k ∈ linkPhase d projectKey s →
      k ∈ s ∨ pyStartswith k projectKey = true) ∧
    (∀ p sub, p ∈ s → sub ∈ d.subtasks p → sub ∈ subtaskPhase d s) := by
  constructor
  · intro k hk
    unfold linkPhase at hk
    exact mem_linkPhase_aux d projectKey s s k hk
  · intro p sub hp hsub
    unfold subtaskPhase
    exact mem_subtaskFold_of_subtask d s s p sub hp hsub

/-- Dataset whose only issue has a subtask in a foreign namespace. -/
def subtaskClashData : RemoteData where
  directIssues := [⟨"ZYN-1", "Story"⟩]
  epicIssues := fun _ => []
  linkedIssues := fun _ => []
  subtasks := fun k => if k = "ZYN-1" then ["OTHER-9"] else []

/-- Witness for C5: the foreign-namespace subtask `OTHER-9` of snapshot
member `ZYN-1` is included by the subtask phase. -/
theorem link_excludes_subtask_includes_witness :
    "OTHER-9" ∈ subtaskPhase subtaskClashData ["ZYN-1"] :=
  (link_excludes_subtask_includes subtaskClashData "ZYN" ["ZYN-1"]).2
    "ZYN-1" "OTHER-9" (by decide) (by decide)

/-- Inserting into a list permutes consing onto it. -/
theorem insertSorted_perm (x : String) (l : List String) :
    (insertSorted x l).Perm (x :: l) := by
  induction l with
  | nil => simp [insertSorted]
  | cons y ys ih =>
    unfold insertSorted
    by_cases h : pyLe x y = true
    · rw [if_pos h]
    · rw [if_neg h]
      exact (List.Perm.cons y ih).trans (List.Perm.swap x y ys)

/-- The sort permutes its input. -/
theorem pySorted_perm (l : List String) : (pySorted l).Perm l := by
  induction l with
  | nil => rfl
  | cons x xs ih =>
    exact (insertSorted_perm x (pySorted xs)).trans (List.Perm.cons x ih)

/-- Membership after insertion. -/
theorem mem_insertSorted {a x : String} {l : List String} :
    a ∈ insertSorted x l ↔ a = x ∨ a ∈ l := by
  rw [(insertSorted_perm x l).mem_iff]
  exact List.mem_cons

/-- A true comparison gives the order relation. -/
theorem pyLe_le {a b : String} (h : pyLe a b = true) : a ≤ b := by
  unfold pyLe at h
  rw [decide_eq_true_iff] at h
  exact String.le_iff_toList_le.mpr h

/-- A false comparison gives the reverse order relation (totality). -/
theorem pyLe_flip {a b : String} (h : pyLe a b = false) : b ≤ a := by
  unfold pyLe at h
  rw [decide_eq_false_iff_not] at h
  exact String.le_iff_toList_le.mpr (le_of_not_le h)

/-- Insertion preserves sortedness. -/
theorem insertSorted_sorted {x : String} {l : List String}
    (hl : l.Sorted (· ≤ ·)) : (insertSorted x l).Sorted (· ≤ ·) := by
  induction l with
  | nil => simp [insertSorted]
  | cons y ys ih =>
    rw [List.sorted_cons] at hl
    obtain ⟨hy, hys⟩ := hl
    unfold insertSorted
    by_cases h : pyLe x y = true
    · rw [if_pos h]
      rw [List.sorted_cons]
      refine ⟨?_, ?_⟩
      · intro b hb
        rcases List.mem_cons.mp hb with h2 | h2
        · subst h2
          exact pyLe_le h
        · exact le_trans (pyLe_le h) (hy b h2)
      · rw [List.sorted_cons]
        exact ⟨hy, hys⟩
    · rw [if_neg h]
      rw [List.sorted_cons]
      refine ⟨?_, ih hys⟩
      intro b hb
      rcases mem_insertSorted.mp hb with h2 | h2
      · subst h2
        exact pyLe_flip (Bool.eq_false_iff.mpr h)
      · exact hy b h2

/-- The sort output is sorted under the code-point order. -/
theorem pySorted_sorted (l : List String) : (pySorted l).Sorted (· ≤ ·) := by
  induction l with
  | nil => simp [pySorted]
  | cons x xs ih => exact insertSorted_sorted ih

/-- A set add preserves freedom from duplicates. -/
theorem pyAdd_nodup {l : List String} (h : l.Nodup) (k : String) :
    (pyAdd l k).Nodup := by
  unfold pyAdd
  by_cases hk : k ∈ l
  · rw [if_pos hk]
    exact h
  · rw [if_neg hk]
    simp [List.nodup_append, h, hk]

/-- Folding set adds preserves freedom from duplicates. -/
theorem foldl_pyAdd_nodup :
    ∀ (ls acc : List String), acc.Nodup → (ls.foldl pyAdd acc).Nodup := by
  intro ls
  induction ls with
  | nil =>
    intro acc h
    exact h
  | cons x rest ih =>
    intro acc h
    exact ih _ (pyAdd_nodup h x)

/-- The epic and subtask sweeps preserve freedom from duplicates. -/
theorem foldl_inner_pyAdd_nodup (g : String → List String) :
    ∀ (ls acc : List String), acc.Nodup →
      (ls.foldl (fun acc2 k => (g k).foldl pyAdd acc2) acc).Nodup := by
  intro ls
  induction ls with
  | nil =>
    intro acc h
    exact h
  | cons x rest ih =>
    intro acc h
    exact ih _ (foldl_pyAdd_nodup (g x) acc h)

/-- One filtered link sweep preserves freedom from duplicates. -/
theorem foldl_linkAdd_nodup (pk : String) :
    ∀ (ls acc : List String), acc.Nodup →
      (ls.foldl
        (fun b lk => if pyStartswith lk pk then pyAdd b lk else b) acc).Nodup := by
  intro ls
  induction ls with
  | nil =>
    intro acc h
    exact h
  | cons lk rest ih =>
    intro acc h
    simp only [List.foldl_cons]
    by_cases hs : pyStartswith lk pk = true
    · rw [if_pos hs]
      exact ih _ (pyAdd_nodup h lk)
    · rw [if_neg hs]
      exact ih _ h

/-- The whole link phase preserves freedom from duplicates. -/
theorem foldl_inner_linkAdd_nodup (g : String → List String) (pk : String) :
    ∀ (ls acc : List String), acc.Nodup →
      (ls.foldl
        (fun acc2 k =>
          (g k).foldl
            (fun b lk => if pyStartswith lk pk then pyAdd b lk else b) acc2)
        acc).Nodup := by
  intro ls
  induction ls with
  | nil =>
    intro acc h
    exact h
  | cons x rest ih =>
    intro acc h
    exact ih _ (foldl_linkAdd_nodup pk (g x) acc h)

/-- The seed fold over the direct matches starts duplicate-free. -/
theorem seedPhase_nodup (d : RemoteData) : (seedPhase d).Nodup := by
  unfold seedPhase
  have : ∀ (ls : List DirectIssue) (acc : List String), acc.Nodup →
      (ls.foldl (fun acc i => pyAdd acc i.key) acc).Nodup := by
    intro ls
    induction ls with
    | nil =>
      intro acc h
      exact h
    | cons x rest ih =>
      intro acc h
      exact ih _ (pyAdd_nodup h x.key)
  exact this d.directIssues [] List.nodup_nil

/-- C6: for every remote dataset and project key the list returned by
`collect_all_related_issues` is sorted under the code-point order and
contains no duplicate keys: an item reachable along two distinct discovery
paths appears exactly once. -/
theorem collect_sorted_nodup (d : RemoteData) (projectKey : String) :
    (collect_all_related_issues d projectKey).Sorted (· ≤ ·) ∧
    (collect_all_related_issues d projectKey).Nodup := by
  constructor
  · exact pySorted_sorted _
  · unfold collect_all_related_issues
    refine (pySorted_perm _).symm.nodup ?_
    unfold subtaskPhase
    refine foldl_inner_pyAdd_nodup d.subtasks _ _ ?_
    unfold linkPhase
    refine foldl_inner_linkAdd_nodup d.linkedIssues projectKey _ _ ?_
    unfold epicPhase
    exact foldl_inner_pyAdd_nodup d.epicIssues _ _ (seedPhase_nodup d)
